import Mathlib

/-!
Verification of `qcelemental/molparse/to_string.py`.

The module formats an in-memory molecule record (`molrec`) into textual
quantum-chemistry formats (`xyz`, `cfour`, `nwchem`).  We embed the module
shallowly: the record is a structure of parallel lists, the Python function
`to_string` becomes a Lean function into `Except PyError String` (a raised
exception is an `Except.error`; referencing the never-assigned local `smol`
after falling through the dtype dispatch is `PyError.unboundLocal`), and
numeric coordinates are rationals with an explicit fixed-point renderer
standing for Python's `{:>w.pf}` float formatting.
-/

/-- The molecule record: parallel per-atom lists plus scalar fields.
Optional dict keys (`name`, `fix_symmetry`, `input_units_to_au`) are
`Option`s; `geom` is the flat 3N coordinate list. -/
structure MolRec where
  units : String
  input_units_to_au : Option ℚ
  geom : List ℚ
  name : Option String
  elem : List String
  elea : List Int
  elez : List Nat
  mass : List ℚ
  elbl : List String
  real : List Bool
  fix_symmetry : Option String
  deriving DecidableEq

/-- How a call of `to_string` can fail: a `NameError` from evaluating an
identifier that is unbound in the module (carrying that identifier — the
interpreter's message is `name '<identifier>' is not defined`, which names
no units value), or Python's unbound-local failure at the final
`'\n'.join(smol)` when no dispatch branch assigned `smol`. -/
inductive PyError where
  | nameError (unbound : String)
  | unboundLocal
  deriving DecidableEq

/-- Modelled from the spec: the external physical-constants provider
(`qcel.constants.bohr2angstroms`, not part of the sources here) supplies the
Bohr-to-Angstrom conversion constant.  Its CODATA value as an exact
rational. -/
def bohr2angstroms : ℚ := 52917721067 / 100000000000

/-- A run of `n` spaces, as used by Python padding and the `sp` separator. -/
def spaces (n : Nat) : String := String.mk (List.replicate n ' ')

/-- Python `'{:w}'.format(s)` on a string: left-justified, padded on the
right with spaces up to width `w` (no truncation). -/
def padRight (s : String) (w : Nat) : String := s ++ spaces (w - s.length)

/-- Right-justification to width `w`, as Python's `>` alignment does for the
formatted coordinate floats. -/
def padLeftSp (s : String) (w : Nat) : String := spaces (w - s.length) ++ s

/-- Left-pad a digit string with zeros up to length `w`. -/
def zeroPad (s : String) (w : Nat) : String :=
  String.mk (List.replicate (w - s.length) '0') ++ s

/-- Round a rational to the nearest integer (halves up), via floor of
`x + 1/2` computed on numerator and denominator. -/
def ratRound (x : ℚ) : Int := Int.fdiv (2 * x.num + (x.den : Int)) (2 * (x.den : Int))

/-- Fixed-point decimal rendering of a rational with `prec` digits after the
point: the body of Python's `'{:>w.pf}'` before alignment. -/
def ratToFixed (q : ℚ) (prec : Nat) : String :=
  let n : Int := ratRound (q * ((10 : ℚ) ^ prec))
  let a : Nat := n.natAbs
  let dn : Nat := 10 ^ prec
  (if n < 0 then "-" else "") ++ toString (a / dn) ++
    (if prec = 0 then "" else "." ++ zeroPad (toString (a % dn)) prec)

/-- The source's `fxyz = '{:>{width}.{prec}f}'`: fixed-point with `prec`
decimals, right-aligned in a field of `width`. -/
def formatFixed (q : ℚ) (width prec : Nat) : String :=
  padLeftSp (ratToFixed q prec) width

/-- The field dict built per atom (`atominfo` in `_atoms_formatter`), with
each value already rendered to the string Python's `str.format` would
substitute. -/
structure AtomInfo where
  elea : String
  elez : String
  elem : String
  mass : String
  elbl : String
  deriving DecidableEq

/-- The opening brace character of a format field. -/
def lbrace : Char := Char.ofNat 123

/-- The closing brace character of a format field. -/
def rbrace : Char := Char.ofNat 125

/-- Value substituted for a field name of the atom dict; a name outside the
dict is kept verbatim (no claim exercises Python's `KeyError` there). -/
def lookupField (f : String) (info : AtomInfo) : String :=
  if f = "elea" then info.elea
  else if f = "elez" then info.elez
  else if f = "elem" then info.elem
  else if f = "mass" then info.mass
  else if f = "elbl" then info.elbl
  else lbrace.toString ++ f ++ rbrace.toString

/-- Render a Python format template over the atom dict: literal characters
pass through, `{field}` is substituted via `lookupField`.  The first
argument accumulates the characters of a field currently being read
(`none` outside a field). -/
def renderTemplateAux (info : AtomInfo) : Option (List Char) → List Char → String
  | none, [] => ""
  | some acc, [] => lbrace.toString ++ String.mk acc.reverse
  | none, c :: rest =>
    if c = lbrace then renderTemplateAux info (some []) rest
    else String.mk [c] ++ renderTemplateAux info none rest
  | some acc, c :: rest =>
    if c = rbrace then
      lookupField (String.mk acc.reverse) info ++ renderTemplateAux info none rest
    else renderTemplateAux info (some (c :: acc)) rest

/-- `tpl.format(**atominfo)` for the templates this module uses. -/
def renderTemplate (tpl : String) (info : AtomInfo) : String :=
  renderTemplateAux info none tpl.data

/-- The `atominfo` dict for atom `iat`: `elea` is the empty string at the
`-1` sentinel, otherwise its decimal rendering; the other fields are the
string renderings of the parallel-list entries. -/
def atomInfoAt (m : MolRec) (iat : Nat) : AtomInfo :=
  { elea := if m.elea.getD iat 0 = -1 then "" else toString (m.elea.getD iat 0)
    elez := toString (m.elez.getD iat 0)
    elem := m.elem.getD iat ""
    mass := toString (m.mass.getD iat 0)
    elbl := m.elbl.getD iat "" }

/-- One loop iteration of `_atoms_formatter`: `none` is the `continue` that
suppresses a ghost atom under the empty ghost template, otherwise the line
for atom `iat` with scaled coordinates `g`. -/
def atomLine (m : MolRec) (atom_format ghost_format : String)
    (width prec sp : Nat) (iat : Nat) (g : ℚ × ℚ × ℚ) : Option String :=
  let info := atomInfoAt m iat
  let coords := [formatFixed g.1 width prec, formatFixed g.2.1 width prec,
    formatFixed g.2.2 width prec]
  if m.real.getD iat false then
    some (String.intercalate (spaces sp) (padRight (renderTemplate atom_format info) width :: coords))
  else if ghost_format = "" then none
  else
    some (String.intercalate (spaces sp) (padRight (renderTemplate ghost_format info) width :: coords))

/-- The loop of `_atoms_formatter`: `iat` starts at the given index and
increments across `geom`; a `none` from `atomLine` contributes no line. -/
def atomsFmtAux (m : MolRec) (atom_format ghost_format : String)
    (width prec sp : Nat) : Nat → List (ℚ × ℚ × ℚ) → List String
  | _, [] => []
  | iat, g :: rest =>
    match atomLine m atom_format ghost_format width prec sp iat g with
    | none => atomsFmtAux m atom_format ghost_format width prec sp (iat + 1) rest
    | some line => line :: atomsFmtAux m atom_format ghost_format width prec sp (iat + 1) rest

/-- `_atoms_formatter(molrec, geom, atom_format, ghost_format, width, prec, sp)`:
one formatted line per non-suppressed atom of the (already scaled,
already reshaped) geometry. -/
def _atoms_formatter (m : MolRec) (geom : List (ℚ × ℚ × ℚ))
    (atom_format ghost_format : String) (width prec sp : Nat) : List String :=
  atomsFmtAux m atom_format ghost_format width prec sp 0 geom

/-- `np.array(molrec['geom']).reshape((-1, 3))`: group the flat coordinate
list into triples. -/
def reshape3 : List ℚ → List (ℚ × ℚ × ℚ)
  | x :: y :: z :: rest => (x, y, z) :: reshape3 rest
  | _ => []

/-- Elementwise multiplication of the reshaped geometry by the scalar
conversion factor. -/
def scaleGeom (factor : ℚ) (g : List (ℚ × ℚ × ℚ)) : List (ℚ × ℚ × ℚ) :=
  g.map fun t => (t.1 * factor, t.2.1 * factor, t.2.2 * factor)

/-- The four-way unit-conversion chain at the top of `to_string`.  The
final branch is written `raise ValidationError("units must be
'Angstrom'/'Bohr', not {units}")` in the source, but `ValidationError` is
never imported or defined in the module, so evaluating the raise's
function expression fails first with `NameError: name 'ValidationError' is
not defined` — the message string (and any units value in it) is never
even constructed. -/
def computeFactor (m : MolRec) (units : String) : Except PyError ℚ :=
  if m.units = "Angstrom" ∧ units = "Angstrom" then .ok 1
  else if m.units = "Angstrom" ∧ units = "Bohr" then
    match m.input_units_to_au with
    | some f => .ok f
    | none => .ok (1 / bohr2angstroms)
  else if m.units = "Bohr" ∧ units = "Angstrom" then .ok bohr2angstroms
  else if m.units = "Bohr" ∧ units = "Bohr" then .ok 1
  else .error (.nameError "ValidationError")

/-- Python's `<` on strings: strict lexicographic comparison by code
point, computed structurally (Lean's own `String.ltb` uses well-founded
recursion, which the kernel cannot evaluate). -/
def strLtB : List Char → List Char → Bool
  | [], [] => false
  | [], _ :: _ => true
  | _ :: _, [] => false
  | a :: as, b :: bs =>
    if a < b then true else if b < a then false else strLtB as bs

/-- Python's `<=` on strings, as the sort comparator of `sorted`. -/
def pyStrLe (a b : String) : Prop := strLtB b.data a.data = false

instance decPyStrLe : DecidableRel pyStrLe := fun a b =>
  instDecidableEqBool (strLtB b.data a.data) false

/-- `formula_generator(elem)`: `collections.Counter` plus
`sorted(counted.items())` — distinct symbols in increasing string order,
each followed by its count when that count exceeds one. -/
def formula_generator (elem : List String) : String :=
  let keys := List.insertionSort pyStrLe elem.dedup
  String.join (keys.map fun el =>
    if elem.count el = 1 then el else el ++ toString (elem.count el))

/-- Python's `str.lower()` on the ASCII unit names this module handles. -/
def pyLower (s : String) : String := String.mk (s.data.map Char.toLower)

/-- The `symm_line` local of the `nwchem` branch: `''` unless
`molrec.get('fix_symmetry', None)` is truthy (present and non-empty). -/
def nwchemSymmLine (m : MolRec) : String :=
  match m.fix_symmetry with
  | some s => if s = "" then "" else "symmetry " ++ s
  | none => ""

/-- `to_string(molrec, dtype, units, atom_format, ghost_format, width, prec)`.
`none` for a template argument is Python's `None` default.  The dispatch
assigns the line list `smol` only for the three known dtypes; otherwise the
final join reads the unassigned local. -/
def to_string (m : MolRec) (dtype : String) (units : String)
    (atom_format ghost_format : Option String) (width prec : Nat) :
    Except PyError String :=
  match computeFactor m units with
  | .error e => .error e
  | .ok factor =>
    let geom := scaleGeom factor (reshape3 m.geom)
    let name := m.name.getD (formula_generator m.elem)
    let tagline := "auto-generated by qcdb from molecule " ++ name
    let smol : Option (List String) :=
      if dtype = "xyz" then
        let af := atom_format.getD "{elem}"
        let gf := ghost_format.getD "@{elem}"
        let atoms := _atoms_formatter m geom af gf width prec 2
        let nat := atoms.length
        let first_line := toString nat ++ (if units = "Bohr" then " au" else "")
        some (first_line :: name :: atoms)
      else if dtype = "cfour" then
        let atoms := _atoms_formatter m geom "{elem}" "GH" width prec 2
        some (tagline :: atoms)
      else if dtype = "nwchem" then
        let atoms := _atoms_formatter m geom "{elem}" "GH" width prec 2
        let first_line := "geometry units " ++ pyLower units
        some (((first_line :: atoms) ++ [nwchemSymmLine m]) ++ ["end"])
      else none
    match smol with
    | some lines => .ok (String.intercalate "\n" lines ++ "\n")
    | none => .error .unboundLocal

/-- A two-atom sample record in Bohr: a real hydrogen and a ghost helium. -/
def mSample : MolRec :=
  { units := "Bohr"
    input_units_to_au := none
    geom := [1, 2, 3, 4, 5, 6]
    name := none
    elem := ["H", "He"]
    elea := [-1, -1]
    elez := [1, 2]
    mass := [1, 4]
    elbl := ["", ""]
    real := [true, false]
    fix_symmetry := none }

/-- `ratRound` is the identity on integers. -/
theorem ratRound_intCast (n : ℤ) : ratRound (n : ℚ) = n := by
  unfold ratRound
  rw [Rat.num_intCast, Rat.den_intCast]
  rw [Int.fdiv_eq_ediv _ (by norm_num)]
  omega

/-- Evaluation rule for `ratToFixed` when the scaled value is an integer. -/
theorem ratToFixed_ofInt (q : ℚ) (prec : Nat) (n : ℤ) (h : q * 10 ^ prec = (n : ℚ)) :
    ratToFixed q prec =
      (if n < 0 then "-" else "") ++ toString (n.natAbs / 10 ^ prec) ++
        (if prec = 0 then "" else "." ++ zeroPad (toString (n.natAbs % 10 ^ prec)) prec) := by
  unfold ratToFixed
  rw [h, ratRound_intCast]

/-- Evaluation rule for `formatFixed` when the scaled value is an integer. -/
theorem formatFixed_ofInt (q : ℚ) (width prec : Nat) (n : ℤ)
    (h : q * 10 ^ prec = (n : ℚ)) :
    formatFixed q width prec =
      padLeftSp ((if n < 0 then "-" else "") ++ toString (n.natAbs / 10 ^ prec) ++
        (if prec = 0 then "" else "." ++ zeroPad (toString (n.natAbs % 10 ^ prec)) prec)) width := by
  unfold formatFixed
  rw [ratToFixed_ofInt q prec n h]

example : formula_generator ["C", "Ca", "O", "O", "Ag"] = "AgCCaO2" := by decide

example : formatFixed 1 4 1 = " 1.0" := by
  rw [formatFixed_ofInt 1 4 1 10 (by norm_num)]
  decide

example : renderTemplate "{elem}" (atomInfoAt mSample 0) = "H" := by decide

/-- `strLtB` decides the lexicographic order on character lists that
underlies `String`'s `<`. -/
theorem strLtB_iff (as : List Char) : ∀ bs, strLtB as bs = true ↔ as < bs := by
  induction as with
  | nil =>
    intro bs
    cases bs with
    | nil =>
      simp only [strLtB, Bool.false_eq_true, false_iff]
      intro h; cases h
    | cons b bs => simpa only [strLtB, true_iff] using List.Lex.nil
  | cons a as ih =>
    intro bs
    cases bs with
    | nil =>
      simp only [strLtB, Bool.false_eq_true, false_iff]
      intro h; cases h
    | cons b bs =>
      simp only [strLtB]
      by_cases hab : a < b
      · simpa only [hab, if_true, true_iff] using List.Lex.rel hab
      · by_cases hba : b < a
        · simp only [hab, hba, if_true, if_false, Bool.false_eq_true, false_iff]
          intro h
          cases h with
          | cons h1 => exact lt_irrefl a hba
          | rel h1 => exact hab h1
        · have heq : a = b := le_antisymm (not_lt.mp hba) (not_lt.mp hab)
          subst heq
          simp only [hab, hba, if_false, ih bs]
          constructor
          · intro h; exact List.Lex.cons h
          · intro h
            cases h with
            | cons h1 => exact h1
            | rel h1 => exact absurd h1 hab

/-- The Python sort comparator agrees with the linear order on `String`. -/
theorem pyStrLe_iff (a b : String) : pyStrLe a b ↔ a ≤ b := by
  unfold pyStrLe
  have h1 : strLtB b.data a.data = true ↔ b < a :=
    (strLtB_iff b.data a.data).trans String.lt_iff_toList_lt.symm
  exact Bool.eq_false_iff.trans ((not_congr h1).trans not_lt)

/-- C8: for every list of element symbols, `formula_generator` counts each
distinct symbol and concatenates, in alphabetical order of symbol, the
symbol alone when its count is 1 and the symbol followed by its count
otherwise; in particular on `['C','Ca','O','O','Ag']` it yields
`"AgCCaO2"`. -/
theorem formula_generator_spec :
    formula_generator ["C", "Ca", "O", "O", "Ag"] = "AgCCaO2" ∧
    ∀ elem : List String, ∃ L : List String,
      L.Sorted (· < ·) ∧ (∀ x, x ∈ L ↔ x ∈ elem) ∧
      formula_generator elem =
        String.join (L.map fun el =>
          if elem.count el = 1 then el else el ++ toString (elem.count el)) := by
  refine ⟨by decide, fun elem => ?_⟩
  refine ⟨List.insertionSort pyStrLe elem.dedup, ?_, ?_, rfl⟩
  · have htot : ∀ a b : String, pyStrLe a b ∨ pyStrLe b a := fun a b => by
      rw [pyStrLe_iff, pyStrLe_iff]; exact le_total a b
    have htr : ∀ a b c : String, pyStrLe a b → pyStrLe b c → pyStrLe a c := by
      intro a b c hab hbc
      rw [pyStrLe_iff] at hab hbc ⊢
      exact le_trans hab hbc
    have hs : (List.insertionSort pyStrLe elem.dedup).Sorted pyStrLe :=
      @List.sorted_insertionSort String pyStrLe decPyStrLe ⟨htot⟩ ⟨htr⟩ elem.dedup
    have hn : (List.insertionSort pyStrLe elem.dedup).Nodup :=
      (List.perm_insertionSort pyStrLe elem.dedup).nodup_iff.mpr (List.nodup_dedup elem)
    exact (hs.and hn).imp fun h => lt_of_le_of_ne ((pyStrLe_iff _ _).mp h.1) h.2
  · intro x
    exact (List.perm_insertionSort pyStrLe elem.dedup).mem_iff.trans List.mem_dedup

/-- Prepending to the accumulator of `String.intercalate.go` factors out. -/
theorem intercalate_go_append (s : String) :
    ∀ (l : List String) (a b : String),
      String.intercalate.go (a ++ b) s l = a ++ String.intercalate.go b s l := by
  intro l
  induction l with
  | nil => intro a b; rfl
  | cons c cs ih =>
    intro a b
    show String.intercalate.go ((a ++ b) ++ s ++ c) s cs =
      a ++ String.intercalate.go ((b ++ s) ++ c) s cs
    rw [show (a ++ b) ++ s ++ c = a ++ ((b ++ s) ++ c) by
      simp only [String.append_assoc]]
    exact ih a ((b ++ s) ++ c)

/-- Peeling the head off a non-trivial intercalation. -/
theorem intercalate_cons (s a : String) (l : List String) (h : l ≠ []) :
    String.intercalate s (a :: l) = a ++ s ++ String.intercalate s l := by
  cases l with
  | nil => exact absurd rfl h
  | cons b bs =>
    show String.intercalate.go a s (b :: bs) = (a ++ s) ++ String.intercalate.go b s bs
    show String.intercalate.go ((a ++ s) ++ b) s bs = (a ++ s) ++ String.intercalate.go b s bs
    exact intercalate_go_append s bs (a ++ s) b

/-- Peeling the final element off a non-trivial intercalation. -/
theorem intercalate_append_end (s x : String) :
    ∀ l : List String, l ≠ [] →
      String.intercalate s (l ++ [x]) = String.intercalate s l ++ s ++ x := by
  intro l
  induction l with
  | nil => intro h; exact absurd rfl h
  | cons a bs ih =>
    intro _
    cases bs with
    | nil =>
      rw [List.cons_append, List.nil_append,
        intercalate_cons s a [x] (by simp)]
      rfl
    | cons b cs =>
      rw [List.cons_append, intercalate_cons s a ((b :: cs) ++ [x]) (by simp),
        intercalate_cons s a (b :: cs) (by simp), ih (by simp)]
      simp only [String.append_assoc]

/-- With a non-empty ghost template every atom of the geometry yields a
line. -/
theorem atomsFmtAux_length_keep (m : MolRec) (af gf : String) (w p sp : Nat)
    (hgf : gf ≠ "") :
    ∀ (g : List (ℚ × ℚ × ℚ)) (i : Nat),
      (atomsFmtAux m af gf w p sp i g).length = g.length := by
  intro g
  induction g with
  | nil => intro i; rfl
  | cons t rest ih =>
    intro i
    simp only [atomsFmtAux, atomLine]
    by_cases hre : m.real.getD i false = true
    · rw [if_pos hre]
      simp [ih (i + 1)]
    · rw [if_neg hre, if_neg hgf]
      simp [ih (i + 1)]

/-- With the empty ghost template exactly the real atoms yield lines. -/
theorem atomsFmtAux_length_skip (m : MolRec) (af : String) (w p sp : Nat) :
    ∀ (g : List (ℚ × ℚ × ℚ)) (i : Nat), i + g.length = m.real.length →
      (atomsFmtAux m af "" w p sp i g).length = (m.real.drop i).count true := by
  intro g
  induction g with
  | nil =>
    intro i h
    have hi : i = m.real.length := by simpa using h
    rw [hi, List.drop_length]
    rfl
  | cons t rest ih =>
    intro i h
    have hi : i < m.real.length := by
      simp only [List.length_cons] at h
      omega
    have hdrop : m.real.drop i = m.real[i] :: m.real.drop (i + 1) :=
      List.drop_eq_getElem_cons hi
    have hgd : m.real.getD i false = m.real[i] := List.getD_eq_getElem m.real false hi
    have hrest : i + 1 + rest.length = m.real.length := by
      simp only [List.length_cons] at h
      omega
    simp only [atomsFmtAux, atomLine]
    by_cases hb : m.real[i] = true
    · rw [if_pos (by rw [hgd]; exact hb)]
      simp [hdrop, List.count_cons, hb, ih (i + 1) hrest]
    · rw [if_neg (by rw [hgd]; exact hb), if_pos trivial]
      have hb' : m.real[i] = false := by
        cases hx : m.real[i]
        · rfl
        · exact absurd hx hb
      simp [hdrop, List.count_cons, hb', ih (i + 1) hrest]

/-- C2 (code bug): at the unrecognized pair
`molrec['units'] = "Kangstrom"`, `units = "Angstrom"`, the call reaches the
`raise ValidationError(...)` line, but `ValidationError` is unbound in the
module, so the call fails with a `NameError` naming only that identifier —
not a validation error, and carrying no units value — and produces no
output string. -/
theorem invalid_units_name_error :
    to_string { mSample with units := "Kangstrom" } "xyz" "Angstrom" none none 17 12 =
      .error (.nameError "ValidationError") := rfl

/-- C3 counterexample: at the unsupported dtype `"gamess"` the code does
not return a value at all — it fails with the unbound-local error at the
final join, refuting the claim that a stale/unset value is returned rather
than failing. -/
theorem unknown_dtype_cex :
    to_string mSample "gamess" "Bohr" none none 17 12 = .error .unboundLocal := by
  rfl

/-- C3 (amended): for every dtype outside `{xyz, cfour, nwchem}` (with a
recognized units pair), `to_string` raises no explicit "unsupported format"
error: it falls through the dispatcher leaving the output list unassigned
and fails with Python's unbound-local error at the final join, producing no
output string. -/
theorem unknown_dtype_unbound (m : MolRec) (dtype units : String)
    (af gf : Option String) (w p : Nat) (f : ℚ)
    (hok : computeFactor m units = .ok f)
    (h1 : dtype ≠ "xyz") (h2 : dtype ≠ "cfour") (h3 : dtype ≠ "nwchem") :
    to_string m dtype units af gf w p = .error .unboundLocal := by
  unfold to_string
  rw [hok]
  simp only [if_neg h1, if_neg h2, if_neg h3]

/-- Witness for the amended C3 at a concrete unsupported dtype. -/
theorem unknown_dtype_unbound_app :
    to_string mSample "psi4" "Angstrom" none none 17 12 = .error .unboundLocal :=
  unknown_dtype_unbound mSample "psi4" "Angstrom" none none 17 12 bohr2angstroms
    rfl (by decide) (by decide) (by decide)

/-- Closed form of the successful `xyz` branch of `to_string`. -/
theorem xyz_shape (m : MolRec) (units : String) (af gf : Option String)
    (w p : Nat) (f : ℚ) (hok : computeFactor m units = .ok f) :
    to_string m "xyz" units af gf w p =
      .ok (String.intercalate "\n"
        ((toString (_atoms_formatter m (scaleGeom f (reshape3 m.geom))
            (af.getD "{elem}") (gf.getD "@{elem}") w p 2).length ++
          (if units = "Bohr" then " au" else "")) ::
          m.name.getD (formula_generator m.elem) ::
          _atoms_formatter m (scaleGeom f (reshape3 m.geom))
            (af.getD "{elem}") (gf.getD "@{elem}") w p 2) ++ "\n") := by
  simp only [to_string, hok, _atoms_formatter]
  rw [if_pos trivial]

/-- Closed form of the successful `cfour` branch of `to_string`. -/
theorem cfour_shape (m : MolRec) (units : String) (af gf : Option String)
    (w p : Nat) (f : ℚ) (hok : computeFactor m units = .ok f) :
    to_string m "cfour" units af gf w p =
      .ok (String.intercalate "\n"
        (("auto-generated by qcdb from molecule " ++
            m.name.getD (formula_generator m.elem)) ::
          _atoms_formatter m (scaleGeom f (reshape3 m.geom)) "{elem}" "GH" w p 2) ++ "\n") := by
  simp only [to_string, hok, _atoms_formatter]
  rw [if_neg (by decide), if_pos trivial]

/-- Closed form of the successful `nwchem` branch of `to_string`. -/
theorem nwchem_shape (m : MolRec) (units : String) (af gf : Option String)
    (w p : Nat) (f : ℚ) (hok : computeFactor m units = .ok f) :
    to_string m "nwchem" units af gf w p =
      .ok (String.intercalate "\n"
        ((("geometry units " ++ pyLower units) ::
          _atoms_formatter m (scaleGeom f (reshape3 m.geom)) "{elem}" "GH" w p 2) ++
          [nwchemSymmLine m, "end"]) ++ "\n") := by
  simp only [to_string, hok, _atoms_formatter]
  rw [if_neg (by decide), if_neg (by decide), if_pos trivial]
  simp [List.append_assoc]

/-- C7: for every record (with a recognized units pair), `to_string` with
dtype `'nwchem'` produces a string that begins with a
`geometry units {units}` header line, then the atom lines, then a
`symmetry {fix_symmetry}` line exactly when `fix_symmetry` is set and
non-empty (a blank line otherwise), and always ends with a line that is
exactly `end`. -/
theorem nwchem_structure (m : MolRec) (units : String) (af gf : Option String)
    (w p : Nat) (f : ℚ) (hok : computeFactor m units = .ok f) :
    to_string m "nwchem" units af gf w p =
      .ok (String.intercalate "\n"
        ((("geometry units " ++ pyLower units) ::
          _atoms_formatter m (scaleGeom f (reshape3 m.geom)) "{elem}" "GH" w p 2) ++
          [nwchemSymmLine m, "end"]) ++ "\n") ∧
    (∀ s, m.fix_symmetry = some s → s ≠ "" → nwchemSymmLine m = "symmetry " ++ s) ∧
    ((m.fix_symmetry = none ∨ m.fix_symmetry = some "") → nwchemSymmLine m = "") ∧
    (∃ pre, to_string m "nwchem" units af gf w p = .ok (pre ++ ("end" ++ "\n"))) := by
  refine ⟨nwchem_shape m units af gf w p f hok, ?_, ?_, ?_⟩
  · intro s hs hne
    unfold nwchemSymmLine
    rw [hs]
    show (if s = "" then "" else "symmetry " ++ s) = "symmetry " ++ s
    rw [if_neg hne]
  · intro h
    unfold nwchemSymmLine
    cases h with
    | inl hn => rw [hn]
    | inr hn => rw [hn]; decide
  · refine ⟨String.intercalate "\n"
      ((("geometry units " ++ pyLower units) ::
        _atoms_formatter m (scaleGeom f (reshape3 m.geom)) "{elem}" "GH" w p 2) ++
        [nwchemSymmLine m]) ++ "\n", ?_⟩
    rw [nwchem_shape m units af gf w p f hok]
    have h1 : (("geometry units " ++ pyLower units) ::
        _atoms_formatter m (scaleGeom f (reshape3 m.geom)) "{elem}" "GH" w p 2) ++
        [nwchemSymmLine m, "end"] =
        ((("geometry units " ++ pyLower units) ::
          _atoms_formatter m (scaleGeom f (reshape3 m.geom)) "{elem}" "GH" w p 2) ++
          [nwchemSymmLine m]) ++ ["end"] := by simp
    rw [h1, intercalate_append_end "\n" "end" _ (by simp)]
    simp [String.append_assoc]

/-- Witness for C7 at a record carrying a non-empty `fix_symmetry`. -/
theorem nwchem_structure_app :
    to_string { mSample with fix_symmetry := some "c2v" } "nwchem" "Angstrom" none none 17 12 =
      .ok (String.intercalate "\n"
        ((("geometry units " ++ pyLower "Angstrom") ::
          _atoms_formatter { mSample with fix_symmetry := some "c2v" }
            (scaleGeom bohr2angstroms (reshape3 mSample.geom)) "{elem}" "GH" 17 12 2) ++
          [nwchemSymmLine { mSample with fix_symmetry := some "c2v" }, "end"]) ++ "\n") ∧
    nwchemSymmLine { mSample with fix_symmetry := some "c2v" } = "symmetry " ++ "c2v" := by
  have h := nwchem_structure { mSample with fix_symmetry := some "c2v" }
    "Angstrom" none none 17 12 bohr2angstroms rfl
  exact ⟨h.1, h.2.1 "c2v" rfl (by decide)⟩

/-- C10: the nwchem header line lowercases the target units argument:
`geometry units angstrom` for `units='Angstrom'` and
`geometry units bohr` for `units='Bohr'`, never the capitalized form. -/
theorem nwchem_units_lowercase (m : MolRec) (af gf : Option String) (w p : Nat)
    (fA fB : ℚ) (hokA : computeFactor m "Angstrom" = .ok fA)
    (hokB : computeFactor m "Bohr" = .ok fB) :
    (∃ rest, to_string m "nwchem" "Angstrom" af gf w p =
      .ok (("geometry units angstrom" ++ "\n") ++ rest)) ∧
    (∃ rest, to_string m "nwchem" "Bohr" af gf w p =
      .ok (("geometry units bohr" ++ "\n") ++ rest)) := by
  constructor
  · refine ⟨String.intercalate "\n"
      (_atoms_formatter m (scaleGeom fA (reshape3 m.geom)) "{elem}" "GH" w p 2 ++
        [nwchemSymmLine m, "end"]) ++ "\n", ?_⟩
    rw [nwchem_shape m "Angstrom" af gf w p fA hokA, List.cons_append,
      intercalate_cons "\n" _ _ (by simp)]
    have h2 : "geometry units " ++ pyLower "Angstrom" = "geometry units angstrom" := by
      decide
    rw [h2]
    simp [String.append_assoc]
  · refine ⟨String.intercalate "\n"
      (_atoms_formatter m (scaleGeom fB (reshape3 m.geom)) "{elem}" "GH" w p 2 ++
        [nwchemSymmLine m, "end"]) ++ "\n", ?_⟩
    rw [nwchem_shape m "Bohr" af gf w p fB hokB, List.cons_append,
      intercalate_cons "\n" _ _ (by simp)]
    have h2 : "geometry units " ++ pyLower "Bohr" = "geometry units bohr" := by
      decide
    rw [h2]
    simp [String.append_assoc]

/-- Witness for C10 at the sample record for both target units. -/
theorem nwchem_units_lowercase_app :
    (∃ rest, to_string mSample "nwchem" "Angstrom" none none 17 12 =
      .ok (("geometry units angstrom" ++ "\n") ++ rest)) ∧
    (∃ rest, to_string mSample "nwchem" "Bohr" none none 17 12 =
      .ok (("geometry units bohr" ++ "\n") ++ rest)) :=
  nwchem_units_lowercase mSample none none 17 12 bohr2angstroms 1 rfl rfl

/-- A real atom's line: the atom template rendered over the field dict,
left-justified to `width`, then the three fixed-point coordinates. -/
theorem atomLine_real (m : MolRec) (af gf : String) (w p sp iat : Nat)
    (g : ℚ × ℚ × ℚ) (h : m.real.getD iat false = true) :
    atomLine m af gf w p sp iat g =
      some (String.intercalate (spaces sp)
        (padRight (renderTemplate af (atomInfoAt m iat)) w ::
          [formatFixed g.1 w p, formatFixed g.2.1 w p, formatFixed g.2.2 w p])) := by
  unfold atomLine
  rw [if_pos h]

/-- A ghost atom's line under a non-empty ghost template. -/
theorem atomLine_ghost (m : MolRec) (af gf : String) (w p sp iat : Nat)
    (g : ℚ × ℚ × ℚ) (h : m.real.getD iat false = false) (hgf : gf ≠ "") :
    atomLine m af gf w p sp iat g =
      some (String.intercalate (spaces sp)
        (padRight (renderTemplate gf (atomInfoAt m iat)) w ::
          [formatFixed g.1 w p, formatFixed g.2.1 w p, formatFixed g.2.2 w p])) := by
  unfold atomLine
  rw [if_neg (by rw [h]; decide), if_neg hgf]

/-- A ghost atom is skipped entirely under the empty ghost template. -/
theorem atomLine_skip (m : MolRec) (af : String) (w p sp iat : Nat)
    (g : ℚ × ℚ × ℚ) (h : m.real.getD iat false = false) :
    atomLine m af "" w p sp iat g = none := by
  unfold atomLine
  rw [if_neg (by rw [h]; decide), if_pos rfl]

/-- The literal template `GH` renders to itself over any field dict. -/
theorem renderGH (info : AtomInfo) : renderTemplate "GH" info = "GH" := rfl

/-- C6: `to_string` with dtype `'cfour'` ignores the caller-supplied
templates; real atoms render with `{elem}`, ghost atoms render as the
literal `GH`, and the first output line (the auto-generated comment naming
the molecule) has no leading whitespace (it starts with `'a'`). -/
theorem cfour_templates_forced (m : MolRec) (units : String)
    (af af2 gf gf2 : Option String) (w p : Nat) (f : ℚ)
    (hok : computeFactor m units = .ok f) :
    to_string m "cfour" units af gf w p = to_string m "cfour" units af2 gf2 w p ∧
    to_string m "cfour" units af gf w p =
      .ok (String.intercalate "\n"
        (("auto-generated by qcdb from molecule " ++
            m.name.getD (formula_generator m.elem)) ::
          _atoms_formatter m (scaleGeom f (reshape3 m.geom)) "{elem}" "GH" w p 2) ++ "\n") ∧
    ("auto-generated by qcdb from molecule " ++
      m.name.getD (formula_generator m.elem)).data.head? = some 'a' ∧
    (∀ iat g, m.real.getD iat false = false →
      atomLine m "{elem}" "GH" w p 2 iat g =
        some (String.intercalate (spaces 2)
          (padRight "GH" w ::
            [formatFixed g.1 w p, formatFixed g.2.1 w p, formatFixed g.2.2 w p]))) ∧
    (∀ iat g, m.real.getD iat false = true →
      atomLine m "{elem}" "GH" w p 2 iat g =
        some (String.intercalate (spaces 2)
          (padRight (renderTemplate "{elem}" (atomInfoAt m iat)) w ::
            [formatFixed g.1 w p, formatFixed g.2.1 w p, formatFixed g.2.2 w p]))) := by
  refine ⟨?_, cfour_shape m units af gf w p f hok, ?_, ?_, ?_⟩
  · rw [cfour_shape m units af gf w p f hok, cfour_shape m units af2 gf2 w p f hok]
  · rw [String.data_append,
      show ("auto-generated by qcdb from molecule " : String).data =
        'a' :: ("uto-generated by qcdb from molecule " : String).data from rfl]
    simp
  · intro iat g h
    rw [atomLine_ghost m "{elem}" "GH" w p 2 iat g h (by decide), renderGH]
  · intro iat g h
    exact atomLine_real m "{elem}" "GH" w p 2 iat g h

/-- Witness for C6: caller templates are ignored and the sample ghost atom
renders as `GH`. -/
theorem cfour_templates_forced_app :
    to_string mSample "cfour" "Angstrom" (some "{elez}") (some "@X{elem}") 17 12 =
      to_string mSample "cfour" "Angstrom" none none 17 12 ∧
    atomLine mSample "{elem}" "GH" 17 12 2 1 (4, 5, 6) =
      some (String.intercalate (spaces 2)
        (padRight "GH" 17 ::
          [formatFixed 4 17 12, formatFixed 5 17 12, formatFixed 6 17 12])) := by
  have h := cfour_templates_forced mSample "Angstrom" (some "{elez}") none
    (some "@X{elem}") none 17 12 bohr2angstroms rfl
  exact ⟨h.1, h.2.2.2.1 1 (4, 5, 6) rfl⟩

/-- C9: a `name` key present with any value — the empty string included —
is used verbatim as the xyz second line and in the cfour tagline; the
generated formula serves as the name only when the key is absent. -/
theorem name_key_verbatim (m : MolRec) (units : String) (af gf : Option String)
    (w p : Nat) (f : ℚ) (hok : computeFactor m units = .ok f) :
    (∀ s, m.name = some s →
      to_string m "xyz" units af gf w p =
        .ok (String.intercalate "\n"
          ((toString (_atoms_formatter m (scaleGeom f (reshape3 m.geom))
              (af.getD "{elem}") (gf.getD "@{elem}") w p 2).length ++
            (if units = "Bohr" then " au" else "")) :: s ::
            _atoms_formatter m (scaleGeom f (reshape3 m.geom))
              (af.getD "{elem}") (gf.getD "@{elem}") w p 2) ++ "\n") ∧
      to_string m "cfour" units af gf w p =
        .ok (String.intercalate "\n"
          (("auto-generated by qcdb from molecule " ++ s) ::
            _atoms_formatter m (scaleGeom f (reshape3 m.geom)) "{elem}" "GH" w p 2) ++ "\n")) ∧
    (m.name = none →
      to_string m "xyz" units af gf w p =
        .ok (String.intercalate "\n"
          ((toString (_atoms_formatter m (scaleGeom f (reshape3 m.geom))
              (af.getD "{elem}") (gf.getD "@{elem}") w p 2).length ++
            (if units = "Bohr" then " au" else "")) :: formula_generator m.elem ::
            _atoms_formatter m (scaleGeom f (reshape3 m.geom))
              (af.getD "{elem}") (gf.getD "@{elem}") w p 2) ++ "\n")) := by
  constructor
  · intro s hs
    constructor
    · rw [xyz_shape m units af gf w p f hok, hs]; rfl
    · rw [cfour_shape m units af gf w p f hok, hs]; rfl
  · intro hn
    rw [xyz_shape m units af gf w p f hok, hn]; rfl

/-- Witness for C9 at a record whose `name` key holds the empty string:
the empty name is used verbatim as the second xyz line. -/
theorem name_key_verbatim_app :
    to_string { mSample with name := some "" } "xyz" "Angstrom" none none 17 12 =
      .ok (String.intercalate "\n"
        ((toString (_atoms_formatter { mSample with name := some "" }
            (scaleGeom bohr2angstroms (reshape3 mSample.geom))
            "{elem}" "@{elem}" 17 12 2).length ++
          (if ("Angstrom" : String) = "Bohr" then " au" else "")) :: "" ::
          _atoms_formatter { mSample with name := some "" }
            (scaleGeom bohr2angstroms (reshape3 mSample.geom))
            "{elem}" "@{elem}" 17 12 2) ++ "\n") :=
  ((name_key_verbatim { mSample with name := some "" } "Angstrom" none none
    17 12 bohr2angstroms rfl).1 "" rfl).1

/-- C4: the xyz output is the rendered-atom count line (suffixed `" au"`
exactly when the target units is Bohr), the name line, then one line per
rendered atom — total line count = rendered atoms + 2 — and with
`ghost_format=''` ghost atoms are omitted from both the body and the
leading count. -/
theorem xyz_structure (m : MolRec) (units : String) (af gf : Option String)
    (w p : Nat) (f : ℚ) (hok : computeFactor m units = .ok f) :
    to_string m "xyz" units af gf w p =
      .ok (String.intercalate "\n"
        ((toString (_atoms_formatter m (scaleGeom f (reshape3 m.geom))
            (af.getD "{elem}") (gf.getD "@{elem}") w p 2).length ++
          (if units = "Bohr" then " au" else "")) ::
          m.name.getD (formula_generator m.elem) ::
          _atoms_formatter m (scaleGeom f (reshape3 m.geom))
            (af.getD "{elem}") (gf.getD "@{elem}") w p 2) ++ "\n") ∧
    ((toString (_atoms_formatter m (scaleGeom f (reshape3 m.geom))
        (af.getD "{elem}") (gf.getD "@{elem}") w p 2).length ++
      (if units = "Bohr" then " au" else "")) ::
      m.name.getD (formula_generator m.elem) ::
      _atoms_formatter m (scaleGeom f (reshape3 m.geom))
        (af.getD "{elem}") (gf.getD "@{elem}") w p 2).length =
      (_atoms_formatter m (scaleGeom f (reshape3 m.geom))
        (af.getD "{elem}") (gf.getD "@{elem}") w p 2).length + 2 ∧
    (m.real.length = (scaleGeom f (reshape3 m.geom)).length →
      (gf.getD "@{elem}" = "" →
        (_atoms_formatter m (scaleGeom f (reshape3 m.geom))
          (af.getD "{elem}") (gf.getD "@{elem}") w p 2).length = m.real.count true) ∧
      (gf.getD "@{elem}" ≠ "" →
        (_atoms_formatter m (scaleGeom f (reshape3 m.geom))
          (af.getD "{elem}") (gf.getD "@{elem}") w p 2).length =
          (scaleGeom f (reshape3 m.geom)).length)) := by
  refine ⟨xyz_shape m units af gf w p f hok, by simp, ?_⟩
  intro hlen
  constructor
  · intro hgf
    unfold _atoms_formatter
    rw [hgf]
    have h := atomsFmtAux_length_skip m (af.getD "{elem}") w p 2
      (scaleGeom f (reshape3 m.geom)) 0 (by omega)
    rw [h, List.drop_zero]
  · intro hgf
    unfold _atoms_formatter
    exact atomsFmtAux_length_keep m (af.getD "{elem}") (gf.getD "@{elem}")
      w p 2 hgf (scaleGeom f (reshape3 m.geom)) 0

/-- Witness for C4 at the sample record with ghost suppression requested:
the suppressed ghost is missing from both the body and the count. -/
theorem xyz_structure_app :
    to_string mSample "xyz" "Bohr" none (some "") 17 12 =
      .ok (String.intercalate "\n"
        ((toString (_atoms_formatter mSample (scaleGeom 1 (reshape3 mSample.geom))
            "{elem}" "" 17 12 2).length ++
          (if ("Bohr" : String) = "Bohr" then " au" else "")) ::
          formula_generator mSample.elem ::
          _atoms_formatter mSample (scaleGeom 1 (reshape3 mSample.geom))
            "{elem}" "" 17 12 2) ++ "\n") ∧
    (_atoms_formatter mSample (scaleGeom 1 (reshape3 mSample.geom))
      "{elem}" "" 17 12 2).length = mSample.real.count true := by
  have h := xyz_structure mSample "Bohr" none (some "") 17 12 1 rfl
  exact ⟨h.1, (h.2.2 (by decide)).1 rfl⟩

/-- Pointwise description of the scaled, reshaped geometry: triple `i`
holds entries `3i, 3i+1, 3i+2` of the flat list, each multiplied by the
conversion factor. -/
theorem scaleGeom_getElem (f : ℚ) :
    ∀ (i : Nat) (L : List ℚ), 3 * i + 2 < L.length →
      (scaleGeom f (reshape3 L))[i]? =
        some (L.getD (3 * i) 0 * f, L.getD (3 * i + 1) 0 * f,
          L.getD (3 * i + 2) 0 * f) := by
  intro i
  induction i with
  | zero =>
    intro L h
    cases L with
    | nil => simp only [List.length_nil] at h; omega
    | cons x L1 =>
      cases L1 with
      | nil => simp only [List.length_cons, List.length_nil] at h; omega
      | cons y L2 =>
        cases L2 with
        | nil => simp only [List.length_cons, List.length_nil] at h; omega
        | cons z rest =>
          show ((x * f, y * f, z * f) :: scaleGeom f (reshape3 rest))[0]? = _
          rw [List.getElem?_cons_zero,
            show (3 : Nat) * 0 + 2 = 0 + 1 + 1 by omega,
            show (3 : Nat) * 0 + 1 = 0 + 1 by omega,
            show (3 : Nat) * 0 = 0 by omega]
          simp only [List.getD_cons_succ, List.getD_cons_zero]
  | succ i ih =>
    intro L h
    cases L with
    | nil => simp only [List.length_nil] at h; omega
    | cons x L1 =>
      cases L1 with
      | nil => simp only [List.length_cons, List.length_nil] at h; omega
      | cons y L2 =>
        cases L2 with
        | nil => simp only [List.length_cons, List.length_nil] at h; omega
        | cons z rest =>
          have hlen : 3 * i + 2 < rest.length := by
            simp only [List.length_cons] at h
            omega
          show ((x * f, y * f, z * f) :: scaleGeom f (reshape3 rest))[i + 1]? = _
          rw [List.getElem?_cons_succ, ih rest hlen,
            show 3 * (i + 1) + 2 = 3 * i + 2 + 1 + 1 + 1 by omega,
            show 3 * (i + 1) + 1 = 3 * i + 1 + 1 + 1 + 1 by omega,
            show 3 * (i + 1) = 3 * i + 1 + 1 + 1 by omega]
          simp only [List.getD_cons_succ]

/-- C1: the conversion factor follows the four-case table — with
`input_units_to_au` taking precedence for Angstrom→Bohr and the reciprocal
of the Bohr-to-Angstrom constant as its fallback — and every coordinate in
the output is the corresponding flat `geom` entry multiplied by this factor
before formatting. -/
theorem factor_table_and_scaling (m : MolRec) :
    (m.units = "Angstrom" → computeFactor m "Angstrom" = .ok 1) ∧
    (m.units = "Angstrom" → ∀ q, m.input_units_to_au = some q →
      computeFactor m "Bohr" = .ok q) ∧
    (m.units = "Angstrom" → m.input_units_to_au = none →
      computeFactor m "Bohr" = .ok (1 / bohr2angstroms)) ∧
    (m.units = "Bohr" → computeFactor m "Angstrom" = .ok bohr2angstroms) ∧
    (m.units = "Bohr" → computeFactor m "Bohr" = .ok 1) ∧
    (∀ f i, 3 * i + 2 < m.geom.length →
      (scaleGeom f (reshape3 m.geom))[i]? =
        some (m.geom.getD (3 * i) 0 * f, m.geom.getD (3 * i + 1) 0 * f,
          m.geom.getD (3 * i + 2) 0 * f)) ∧
    (∀ units af gf w p f, computeFactor m units = .ok f →
      to_string m "xyz" units af gf w p =
        .ok (String.intercalate "\n"
          ((toString (_atoms_formatter m (scaleGeom f (reshape3 m.geom))
              (af.getD "{elem}") (gf.getD "@{elem}") w p 2).length ++
            (if units = "Bohr" then " au" else "")) ::
            m.name.getD (formula_generator m.elem) ::
            _atoms_formatter m (scaleGeom f (reshape3 m.geom))
              (af.getD "{elem}") (gf.getD "@{elem}") w p 2) ++ "\n")) := by
  refine ⟨?_, ?_, ?_, ?_, ?_, ?_, ?_⟩
  · intro h
    simp [computeFactor, h]
  · intro h q hq
    simp [computeFactor, h, hq]
  · intro h hq
    simp [computeFactor, h, hq]
  · intro h
    simp [computeFactor, h]
  · intro h
    simp [computeFactor, h]
  · intro f i hi
    exact scaleGeom_getElem f i m.geom hi
  · intro units af gf w p f hok
    exact xyz_shape m units af gf w p f hok

/-- Witness for C1: the Bohr→Angstrom factor and the scaling of the first
coordinate triple at the sample record, plus the Angstrom→Bohr factor when
`input_units_to_au` is present. -/
theorem factor_table_and_scaling_app :
    computeFactor mSample "Angstrom" = .ok bohr2angstroms ∧
    (scaleGeom bohr2angstroms (reshape3 mSample.geom))[0]? =
      some (mSample.geom.getD (3 * 0) 0 * bohr2angstroms,
        mSample.geom.getD (3 * 0 + 1) 0 * bohr2angstroms,
        mSample.geom.getD (3 * 0 + 2) 0 * bohr2angstroms) ∧
    computeFactor { mSample with units := "Angstrom", input_units_to_au := some (3 / 2) }
      "Bohr" = .ok (3 / 2) := by
  refine ⟨(factor_table_and_scaling mSample).2.2.2.1 rfl,
    (factor_table_and_scaling mSample).2.2.2.2.2.1 bohr2angstroms 0 (by decide), ?_⟩
  exact (factor_table_and_scaling
    { mSample with units := "Angstrom", input_units_to_au := some (3 / 2) }).2.1
    rfl (3 / 2) rfl

/-- C5 counterexample: the rendered label is left-justified (padded on the
right), so the concrete line for a real hydrogen at width 4 starts with
`H` followed by spaces — it is not the left-padded rendering the claim
describes. -/
theorem atom_pad_cex :
    _atoms_formatter mSample [(1, 2, 3)] "{elem}" "@{elem}" 4 1 2 =
      ["H      1.0   2.0   3.0"] ∧
    "H      1.0   2.0   3.0" ≠
      String.intercalate (spaces 2)
        (padLeftSp (renderTemplate "{elem}" (atomInfoAt mSample 0)) 4 ::
          [formatFixed 1 4 1, formatFixed 2 4 1, formatFixed 3 4 1]) := by
  have h1 : formatFixed (1 : ℚ) 4 1 = " 1.0" := by
    rw [formatFixed_ofInt 1 4 1 10 (by norm_num)]
    decide
  have h2 : formatFixed (2 : ℚ) 4 1 = " 2.0" := by
    rw [formatFixed_ofInt 2 4 1 20 (by norm_num)]
    decide
  have h3 : formatFixed (3 : ℚ) 4 1 = " 3.0" := by
    rw [formatFixed_ofInt 3 4 1 30 (by norm_num)]
    decide
  constructor
  · have hline := atomLine_real mSample "{elem}" "@{elem}" 4 1 2 0 (1, 2, 3) rfl
    unfold _atoms_formatter
    simp only [atomsFmtAux, hline, h1, h2, h3]
    decide
  · rw [h1, h2, h3]
    decide

/-- C5 (amended): for every atom index, `_atoms_formatter` emits — when
`real[i]` — the atom template rendered over the field dict (with `elea`
empty at the `-1` sentinel) left-justified (padded on the right) to
`width`; skips the atom entirely when it is a ghost and `ghost_format` is
empty; renders `ghost_format` the same way otherwise; and joins the label
with the three fixed-point coordinates by the 2-space separator. -/
theorem atom_line_spec (m : MolRec) (af gf : String) (w p sp iat : Nat)
    (g : ℚ × ℚ × ℚ) (rest : List (ℚ × ℚ × ℚ)) :
    (m.elea.getD iat 0 = -1 → (atomInfoAt m iat).elea = "") ∧
    (m.real.getD iat false = true →
      atomsFmtAux m af gf w p sp iat (g :: rest) =
        String.intercalate (spaces sp)
          (padRight (renderTemplate af (atomInfoAt m iat)) w ::
            [formatFixed g.1 w p, formatFixed g.2.1 w p, formatFixed g.2.2 w p]) ::
          atomsFmtAux m af gf w p sp (iat + 1) rest) ∧
    (m.real.getD iat false = false → gf = "" →
      atomsFmtAux m af gf w p sp iat (g :: rest) =
        atomsFmtAux m af gf w p sp (iat + 1) rest) ∧
    (m.real.getD iat false = false → gf ≠ "" →
      atomsFmtAux m af gf w p sp iat (g :: rest) =
        String.intercalate (spaces sp)
          (padRight (renderTemplate gf (atomInfoAt m iat)) w ::
            [formatFixed g.1 w p, formatFixed g.2.1 w p, formatFixed g.2.2 w p]) ::
          atomsFmtAux m af gf w p sp (iat + 1) rest) := by
  refine ⟨?_, ?_, ?_, ?_⟩
  · intro h
    show (if m.elea.getD iat 0 = -1 then "" else toString (m.elea.getD iat 0)) = ""
    rw [if_pos h]
  · intro h
    simp only [atomsFmtAux, atomLine_real m af gf w p sp iat g h]
  · intro h hgf
    subst hgf
    simp only [atomsFmtAux, atomLine_skip m af w p sp iat g h]
  · intro h hgf
    simp only [atomsFmtAux, atomLine_ghost m af gf w p sp iat g h hgf]

/-- Witness for the amended C5: the real atom of the sample record yields
its rendered line, the ghost atom is skipped under the empty ghost
template, and the `-1` sentinel gives an empty `elea` field. -/
theorem atom_line_spec_app :
    atomsFmtAux mSample "{elem}" "@{elem}" 17 12 2 0 [(1, 1, 1), (2, 2, 2)] =
      String.intercalate (spaces 2)
        (padRight (renderTemplate "{elem}" (atomInfoAt mSample 0)) 17 ::
          [formatFixed 1 17 12, formatFixed 1 17 12, formatFixed 1 17 12]) ::
        atomsFmtAux mSample "{elem}" "@{elem}" 17 12 2 1 [(2, 2, 2)] ∧
    atomsFmtAux mSample "{elem}" "" 17 12 2 1 [(2, 2, 2)] =
      atomsFmtAux mSample "{elem}" "" 17 12 2 2 [] ∧
    (atomInfoAt mSample 0).elea = "" := by
  have h0 := atom_line_spec mSample "{elem}" "@{elem}" 17 12 2 0 (1, 1, 1) [(2, 2, 2)]
  have h1 := atom_line_spec mSample "{elem}" "" 17 12 2 1 (2, 2, 2) []
  exact ⟨h0.2.1 rfl, h1.2.2.1 rfl rfl, h0.1 rfl⟩
